import Mathlib

/-!
Formal model of the sequential AI workflow builder (`streamlit_app.py`):
an insertion-ordered workflow data store, Python-style string helpers,
chat-history synthesis, task templates, the reference registry, and the
streaming pipeline executor `MyWorkflow.stream`, together with theorems
about their behavior.
-/

/-! ## Definitions -/

/-- Insertion-ordered string-keyed mapping, modelling a Python `dict`
(such as `ss.workflow_data`): the first occurrence of a key in the list is
its binding; `dictSet` updates in place or appends at the end. -/
abbrev WorkflowData : Type := List (String × String)

/-- Python `d[k]` / `d.get(k)`: value of the binding of `k`, if any. -/
def dictGet : WorkflowData → String → Option String
  | [], _ => none
  | (k', v) :: rest, k => if k' = k then some v else dictGet rest k

/-- Python `d.get(k, dflt)`. -/
def dictGetD (d : WorkflowData) (k dflt : String) : String :=
  (dictGet d k).getD dflt

/-- Python `d[k] = v`: update an existing binding in place, else append. -/
def dictSet : WorkflowData → String → String → WorkflowData
  | [], k, v => [(k, v)]
  | (k', v') :: rest, k, v =>
    if k' = k then (k, v) :: rest else (k', v') :: dictSet rest k v

/-- Python `a | b` on dicts: entries of `b` applied to `a` in order
(`b`'s values win on common keys, new keys appended in `b`'s order). -/
def dictUnion (a b : WorkflowData) : WorkflowData :=
  b.foldl (fun acc kv => dictSet acc kv.1 kv.2) a

/-- Index of the first occurrence of `pat` in a character list, if any. -/
def firstIdxOf (pat : List Char) : List Char → Option Nat
  | [] => if pat.isPrefixOf ([] : List Char) then some 0 else none
  | c :: rest =>
    if pat.isPrefixOf (c :: rest) then some 0
    else (firstIdxOf pat rest).map (fun i => i + 1)

/-- Python `s.find(pat)` as an `Option`. -/
def pyFind (s pat : String) : Option Nat :=
  firstIdxOf pat.data s.data

/-- Python `s.find(pat)`: index of the first occurrence, `-1` if absent. -/
def pyFindInt (s pat : String) : Int :=
  match pyFind s pat with
  | none => -1
  | some i => (i : Int)

/-- Clamp a (possibly negative) Python slice index for a string of length
`n` to an absolute position in `[0, n]`. -/
def pyClampIndex (n : Nat) (i : Int) : Nat :=
  if i < 0 then (max ((n : Int) + i) 0).toNat else min i.toNat n

/-- Python `s[a:b]` (step 1), including negative-index semantics. -/
def pySlice (s : String) (a b : Int) : String :=
  let l := s.data
  String.mk ((l.take (pyClampIndex l.length b)).drop (pyClampIndex l.length a))

/-- Python whitespace as used by `str.strip()` (ASCII part). -/
def isPySpace (c : Char) : Bool :=
  c == ' ' || c == '\t' || c == '\n' || c == '\r' || c == '\x0b' || c == '\x0c'

/-- Python `s.strip()`. -/
def pyStrip (s : String) : String :=
  String.mk (((s.data.dropWhile isPySpace).reverse.dropWhile isPySpace).reverse)

/-- The task-scoped output key, Python `f"task_-id-_output"` with the
task's sequence position interpolated. -/
def taskOutKey (n : Nat) : String := "task_" ++ Nat.repr n ++ "_output"

/-- The task-scoped key `task_<id>_system_context`. -/
def taskSysKey (n : Nat) : String := "task_" ++ Nat.repr n ++ "_system_context"

/-- The task-scoped key `task_<id>_task_prompt`. -/
def taskPromptKey (n : Nat) : String := "task_" ++ Nat.repr n ++ "_task_prompt"

/-- The placeholder text `-task_<n>_output-` (in braces) that a later
task's template may contain. -/
def taskOutPlaceholder (n : Nat) : String := "\x7b" ++ taskOutKey n ++ "\x7d"

/-- `extract_user_prompt` (src/streamlit_app.py lines 67-72): content
between the first `<user>` and `</user>` markers, stripped; Python `find`
returns `-1` when a marker is absent. -/
def extract_user_prompt (s : String) : String :=
  let start_index : Int := pyFindInt s ("<user>") + 6
  let end_index : Int := pyFindInt s ("</user>")
  pyStrip (pySlice s start_index end_index)

/-- Decimal digit characters of `n`, most significant first. -/
def decDigits (n : Nat) : List Char :=
  if _h : n < 10 then [Nat.digitChar n]
  else decDigits (n / 10) ++ [Nat.digitChar (n % 10)]
termination_by n
decreasing_by exact Nat.div_lt_self (by omega) (by omega)

/-- An `LLMTask` as created by the app, carried in its literal template
string form. Modelled from the spec: `ChatPromptTemplate.from_string` /
`to_string` (lightlang internals are not in src/) round-trip, spec §4.1:
`toString` returns the original literal form with all placeholder syntax
intact, so a task is represented by its template string. -/
structure LLMTask where
  template : String
deriving DecidableEq

/-- Loop of `generate_chat_history` (src lines 57-63): accumulated text
for the given tasks, enumerated starting at position `i`; the source
builds the same string by successive `+=`. -/
def chatHistoryRaw (wd : WorkflowData) : List LLMTask → Nat → String
  | [], _ => ("")
  | task :: rest, i =>
    "User: " ++ extract_user_prompt task.template ++ "\nAssistant: " ++
      dictGetD wd (taskOutKey i) "" ++ "\n\n" ++
      chatHistoryRaw wd rest (i + 1)

/-- `generate_chat_history` (src lines 57-63). -/
def generate_chat_history (tasks : List LLMTask) (wd : WorkflowData) : String :=
  pyStrip (chatHistoryRaw wd tasks 1)

/-- `TASK_TEMPLATE.format(...)` as called in `add_task` (src lines
97-103): the fixed template of src lines 17-26 with `system_context` and
`task_prompt` substituted verbatim and the other three placeholders kept
intact. -/
def taskTemplateFormat (system_context task_prompt : String) : String :=
  "<system>\nYou are an AI assistant in a sequential workflow.\nDate: {current_date}\nTime: {current_time}\nSystem context: " ++
    system_context ++ "\n{chat_history_section}\n</system>\n<user>\n" ++
    task_prompt ++ "\n</user>"

/-- The Streamlit session-state fields driving the pipeline
(`ss.tasks`, `ss.workflow_data`, `ss.saved_searches`, `ss.saved_scrapes`,
src lines 41-46). -/
structure SessionState where
  tasks : List LLMTask
  workflow_data : WorkflowData
  saved_searches : List (String × String × String)
  saved_scrapes : List (String × String × String)
deriving DecidableEq

/-- `add_task` (src lines 94-111). -/
def add_task (st : SessionState) (system_context task_prompt : String) :
    SessionState :=
  let task_id := st.tasks.length + 1
  let full_prompt := taskTemplateFormat system_context task_prompt
  { st with
    tasks := st.tasks ++ [⟨full_prompt⟩]
    workflow_data :=
      dictSet
        (dictSet st.workflow_data
          (taskSysKey task_id) system_context)
        (taskPromptKey task_id) task_prompt }

/-- The delete-task button handler (src lines 192-194):
`ss.tasks.pop(idx)` removes the task at `idx`; `ss.workflow_data` is not
touched. -/
def delete_task (st : SessionState) (idx : Nat) : SessionState :=
  { st with tasks := st.tasks.eraseIdx idx }

/-- The web-search registration handler (src lines 254-260), with the
search results carried in their stored form. -/
def register_search (st : SessionState) (query results : String) :
    SessionState :=
  let ref_name := "search_ref_" ++ Nat.repr (st.saved_searches.length + 1)
  { st with
    saved_searches := st.saved_searches ++ [(ref_name, query, results)]
    workflow_data := dictSet st.workflow_data ref_name results }

/-- The web-scrape registration handler (src lines 277-285). -/
def register_scrape (st : SessionState) (domain raw_text : String) :
    SessionState :=
  let ref_name := "scrape_ref_" ++ Nat.repr (st.saved_scrapes.length + 1)
  { st with
    saved_scrapes := st.saved_scrapes ++ [(ref_name, domain, raw_text)]
    workflow_data := dictSet st.workflow_data ref_name raw_text }

/-- The chat-history section computed in `MyWorkflow.get_task_input`
(src lines 123-130). -/
def chat_history_section (tasks : List LLMTask) (wd : WorkflowData)
    (task_id : Nat) : String :=
  if task_id = 1 then ("")
  else ("Here's the chat history so far:\n") ++
    generate_chat_history (tasks.take (task_id - 1)) wd

/-- `MyWorkflow.get_task_input` (src lines 122-139): the render-time
view `self.workflow_data | -overrides-` merging the three per-task
override keys into a copy of the shared store. -/
def get_task_input (tasks : List LLMTask) (wd : WorkflowData)
    (task_id : Nat) : WorkflowData :=
  dictUnion wd
    [("system_context",
        dictGetD wd (taskSysKey task_id) ""),
      ("task_prompt",
        dictGetD wd (taskPromptKey task_id) ""),
      ("chat_history_section", chat_history_section tasks wd task_id)]

/-- Modelled from the spec: rendering of a task's `ChatPromptTemplate`
against a data mapping (lightlang internals are not in src/). Spec
§4.1/§6: placeholder syntax is a name in single braces; each placeholder
whose name is bound in the data is replaced by its value; an unresolved
or unterminated placeholder is left byte-identical (partial rendering,
spec §3). `acc` holds the characters of the placeholder name being
scanned, in reverse. -/
def renderGo (d : WorkflowData) : List Char → Option (List Char) → List Char
  | [], none => []
  | [], some acc => '{' :: acc.reverse
  | c :: rest, none =>
    if c = '{' then renderGo d rest (some [])
    else c :: renderGo d rest none
  | c :: rest, some acc =>
    if c = '}' then
      match dictGet d (String.mk acc.reverse) with
      | some v => v.data ++ renderGo d rest none
      | none => '{' :: (acc.reverse ++ '}' :: renderGo d rest none)
    else renderGo d rest (some (c :: acc))

/-- Render a template string against a data mapping. -/
def renderTemplate (s : String) (d : WorkflowData) : String :=
  String.mk (renderGo d s.data none)

/-- Lifecycle events of a run as consumed at src lines 227-234
(`BEGIN_TASK`, content fragments, `END_TASK`). -/
inductive Event where
  | taskBegin (id : Nat)
  | contentFragment (text : String)
  | taskEnd (id : Nat)
deriving DecidableEq

/-- Outcome of one generation-capability invocation: the fragments it
yielded, and whether it completed normally (`ok = true`) or raised a
provider error after yielding them. -/
structure GenOutcome where
  fragments : List String
  ok : Bool
deriving DecidableEq

/-- A generation capability: the provider's behavior at the invocation
made for a given task position, given the fully rendered prompt. -/
abbrev GenCapability := Nat → String → GenOutcome

/-- Concatenation of the fragments accumulated into a task's result
buffer (`task_res.llm_output`). -/
def joinAll : List String → String
  | [] => ("")
  | s :: rest => s ++ joinAll rest

/-- One delivered event together with the contents of the shared
`workflow_data` store at the moment the consumer receives it. -/
structure TraceStep where
  event : Event
  store : WorkflowData
deriving DecidableEq

/-- Result of driving a run to its end: the delivered trace, the
rendered prompt of every started task, the final store, and whether the
run completed without a provider error. -/
structure RunResult where
  trace : List TraceStep
  prompts : List String
  store : WorkflowData
  ok : Bool
deriving DecidableEq

/-- `MyWorkflow.stream` (src lines 141-152) driven to its end by a
consumer (src lines 227-234), as a trace semantics. The body of
`task.stream(inputs, llm)` is modelled from the spec (§4.4; lightlang
internals are not in src/): render the template against the inputs, emit
`TaskBegin`, re-emit each provider fragment while accumulating the result
buffer, and emit `TaskEnd` on normal completion; a provider failure
aborts the task after its fragments with no `TaskEnd`, and the exception
propagates out of `MyWorkflow.stream`, ending the run. The write of
`task_<id>_output` (src line 152) is executed by `MyWorkflow.stream` only
after `yield from task.stream(...)` returns, i.e. after the `TaskEnd`
event has been delivered to the consumer; every event of task `id` is
therefore paired with the store as it stands before that write. -/
def streamRun (gen : GenCapability) (allTasks : List LLMTask) :
    List LLMTask → Nat → WorkflowData → RunResult
  | [], _, wd => ⟨[], [], wd, true⟩
  | task :: rest, task_id, wd =>
    let inputs := get_task_input allTasks wd task_id
    let prompt := renderTemplate task.template inputs
    let out := gen task_id prompt
    let beginSteps :=
      TraceStep.mk (Event.taskBegin task_id) wd ::
        out.fragments.map (fun f => TraceStep.mk (Event.contentFragment f) wd)
    if out.ok then
      let wd' := dictSet wd (taskOutKey task_id) (joinAll out.fragments)
      let r := streamRun gen allTasks rest (task_id + 1) wd'
      ⟨beginSteps ++ TraceStep.mk (Event.taskEnd task_id) wd :: r.trace,
        prompt :: r.prompts, r.store, r.ok⟩
    else
      ⟨beginSteps, [prompt], wd, false⟩

/-- The Run Workflow button handler (src lines 206-234): store the
input text, refresh `current_date`/`current_time` once via
`update_workflow_data` (src lines 50-53), then drive
`MyWorkflow(...).stream()` to its end. `date`/`time` are the formatted
values of the single `datetime.now()` call. -/
def run_workflow (gen : GenCapability) (st : SessionState)
    (input_text date time : String) : RunResult :=
  let wd0 :=
    dictSet
      (dictSet (dictSet st.workflow_data ("input_text") input_text)
        ("current_date") date)
      ("current_time") time
  streamRun gen st.tasks st.tasks 1 wd0

/-- The "User/Assistant" block contributed by the completed task at
position `i`. -/
def chatBlock (wd : WorkflowData) (task : LLMTask) (i : Nat) : String :=
  "User: " ++ extract_user_prompt task.template ++ "\nAssistant: " ++
    dictGetD wd (taskOutKey i) "" ++ "\n\n"

/-- The blocks of the chat history, one per task, in task order. -/
def chatBlocks (wd : WorkflowData) : List LLMTask → Nat → List String
  | [], _ => []
  | task :: rest, i => chatBlock wd task i :: chatBlocks wd rest (i + 1)

/-- The event shape of a list of completed tasks starting at position
`k`: one `TaskBegin`/`TaskEnd` pair per task, in order, with that task's
fragments strictly between the pair. -/
def eventBlocks : Nat → List (List String) → List Event
  | _, [] => []
  | k, f :: rest =>
    Event.taskBegin k ::
      (f.map Event.contentFragment ++ (Event.taskEnd k :: eventBlocks (k + 1) rest))

/-- UI task-list operations available before a run: the sidebar Add
Task button (`add_task`, src lines 161-168) and a task's Delete button
(`ss.tasks.pop(idx)`, src lines 192-194). -/
inductive TaskOp where
  | add (system_context task_prompt : String)
  | del (idx : Nat)

/-- Apply one UI operation to the session. -/
def applyOp (st : SessionState) : TaskOp → SessionState
  | TaskOp.add sc tp => add_task st sc tp
  | TaskOp.del idx => delete_task st idx

/-- Apply a sequence of UI operations to the session. -/
def applyOps (st : SessionState) (ops : List TaskOp) : SessionState :=
  ops.foldl applyOp st

/-- A fresh session (src lines 41-46). -/
def initialSession : SessionState := ⟨[], [], [], []⟩

/-- The definition-time (system context, task prompt) pairs surviving
a sequence of UI operations, in order. -/
def survivors : List (String × String) → List TaskOp → List (String × String)
  | defs, [] => defs
  | defs, TaskOp.add sc tp :: ops => survivors (defs ++ [(sc, tp)]) ops
  | defs, TaskOp.del idx :: ops => survivors (defs.eraseIdx idx) ops

/-- A concrete capability: the invocation for task `k` yields the
fragments "Hel" and "lo<k>" and completes normally. -/
def genDemo : GenCapability :=
  fun k _ => ⟨["Hel", "lo" ++ Nat.repr k], true⟩

/-- A concrete capability that completes normally for task 1 and
raises a provider error (after one fragment) from task 2 on. -/
def genFail2 : GenCapability :=
  fun k _ => ⟨["x" ++ Nat.repr k], decide (k < 2)⟩

/-- A two-task session: task 2's prompt references task 1's output
placeholder. -/
def sessionDemo : SessionState :=
  add_task (add_task initialSession ("sys1") ("p1")) ("sys2")
    ("use {task_1_output} now")

/-- A three-task session extending `sessionDemo`. -/
def sessionDemo3 : SessionState := add_task sessionDemo ("sys3") ("p3")

/-- The complete, successful two-task demo run. -/
def runDemo : RunResult := run_workflow genDemo sessionDemo ("inp") ("D") ("T")

/-- The shared store as it stands when `TaskBegin(2)` of `runDemo` is
delivered: task 1's output is present, task 2's is not yet. -/
def wdDemoAtTask2 : WorkflowData :=
  [("task_1_system_context", "sys1"), ("task_1_task_prompt", "p1"),
    ("task_2_system_context", "sys2"),
    ("task_2_task_prompt", "use {task_1_output} now"),
    ("input_text", "inp"), ("current_date", "D"), ("current_time", "T"),
    ("task_1_output", "Hello1")]

/-! ## Theorems -/

theorem dictGet_set_self (d : WorkflowData) (k v : String) :
    dictGet (dictSet d k v) k = some v := by
  induction d with
  | nil => simp [dictSet, dictGet]
  | cons hd tl ih =>
    obtain ⟨k', v'⟩ := hd
    by_cases h : k' = k <;> simp [dictSet, dictGet, h, ih]

theorem dictGet_set_ne (d : WorkflowData) (k v k' : String) (h : k' ≠ k) :
    dictGet (dictSet d k v) k' = dictGet d k' := by
  induction d with
  | nil => simp [dictSet, dictGet, Ne.symm h]
  | cons hd tl ih =>
    obtain ⟨k₀, v₀⟩ := hd
    by_cases h0 : k₀ = k
    · subst h0
      simp [dictSet, dictGet, Ne.symm h]
    · simp only [dictSet, if_neg h0, dictGet]
      by_cases h1 : k₀ = k' <;> simp [h1, ih]

theorem toDigitsCore_eq_decDigits :
    ∀ (fuel n : Nat) (acc : List Char), n < fuel →
      Nat.toDigitsCore 10 fuel n acc = decDigits n ++ acc := by
  intro fuel
  induction fuel with
  | zero => intro n acc h; omega
  | succ fuel ih =>
    intro n acc h
    by_cases h10 : n / 10 = 0
    · have hn : n < 10 := by omega
      rw [decDigits]
      simp [Nat.toDigitsCore, h10, hn, Nat.mod_eq_of_lt hn]
    · have hn : ¬n < 10 := by omega
      have hlt : n / 10 < fuel := by
        have := Nat.div_lt_self (by omega : 0 < n) (by omega : 1 < 10)
        omega
      rw [decDigits]
      simp only [Nat.toDigitsCore, h10, if_false, dif_neg hn]
      rw [ih (n / 10) (Nat.digitChar (n % 10) :: acc) hlt]
      simp

theorem decDigits_ne_nil (n : Nat) : decDigits n ≠ [] := by
  rw [decDigits]
  split <;> simp

theorem digitChar_inj_lt :
    ∀ a < 10, ∀ b < 10, Nat.digitChar a = Nat.digitChar b → a = b := by decide

theorem decDigits_unfold (k : Nat) :
    decDigits k = if _h : k < 10 then [Nat.digitChar k]
      else decDigits (k / 10) ++ [Nat.digitChar (k % 10)] := by
  rw [decDigits]

theorem decDigits_inj (m : Nat) :
    ∀ n : Nat, decDigits m = decDigits n → m = n := by
  induction m using Nat.strong_induction_on with
  | _ m ih =>
    intro n h
    rw [decDigits_unfold m, decDigits_unfold n] at h
    by_cases hm : m < 10 <;> by_cases hn : n < 10
    · rw [dif_pos hm, dif_pos hn] at h
      exact digitChar_inj_lt m hm n hn (by injection h)
    · rw [dif_pos hm, dif_neg hn] at h
      have := congrArg List.length h
      simp at this
      exact absurd this (decDigits_ne_nil (n / 10))
    · rw [dif_neg hm, dif_pos hn] at h
      have := congrArg List.length h
      simp at this
      exact absurd this (decDigits_ne_nil (m / 10))
    · rw [dif_neg hm, dif_neg hn] at h
      rw [← List.concat_eq_append, ← List.concat_eq_append] at h
      obtain ⟨h1, h2⟩ := List.concat_inj.mp h
      have hdiv : m / 10 = n / 10 :=
        ih (m / 10) (Nat.div_lt_self (by omega) (by omega)) (n / 10) h1
      have hmod : m % 10 = n % 10 :=
        digitChar_inj_lt (m % 10) (Nat.mod_lt m (by omega)) (n % 10)
          (Nat.mod_lt n (by omega)) h2
      omega

theorem natRepr_inj (m n : Nat) (h : Nat.repr m = Nat.repr n) : m = n := by
  apply decDigits_inj
  have hm := toDigitsCore_eq_decDigits (m + 1) m [] (Nat.lt_succ_self m)
  have hn := toDigitsCore_eq_decDigits (n + 1) n [] (Nat.lt_succ_self n)
  unfold Nat.repr Nat.toDigits at h
  rw [hm, hn] at h
  simp only [List.asString, List.append_nil] at h
  exact congrArg String.data h

theorem natRepr_data (n : Nat) : (Nat.repr n).data = decDigits n := by
  unfold Nat.repr Nat.toDigits
  rw [toDigitsCore_eq_decDigits (n + 1) n [] (Nat.lt_succ_self n)]
  simp [List.asString]

theorem decDigits_mem_digit (n : Nat) :
    ∀ c ∈ decDigits n, ∃ x, x < 10 ∧ c = Nat.digitChar x := by
  induction n using Nat.strong_induction_on with
  | _ n ih =>
    intro c hc
    rw [decDigits_unfold n] at hc
    by_cases hn : n < 10
    · rw [dif_pos hn] at hc
      simp at hc
      exact ⟨n, hn, hc⟩
    · rw [dif_neg hn] at hc
      rcases List.mem_append.mp hc with hc | hc
      · exact ih (n / 10) (Nat.div_lt_self (by omega) (by omega)) c hc
      · simp at hc
        exact ⟨n % 10, Nat.mod_lt n (by omega), hc⟩

theorem taskOutKey_no_close (n : Nat) : ∀ c ∈ (taskOutKey n).data, c ≠ '}' := by
  intro c hc
  simp only [taskOutKey, String.data_append] at hc
  rcases List.mem_append.mp hc with h | h
  · rcases List.mem_append.mp h with h | h
    · have ht : ∀ c ∈ ("task_").data, c ≠ '}' := by decide
      exact ht c h
    · rw [natRepr_data] at h
      obtain ⟨x, hx, rfl⟩ := decDigits_mem_digit n c h
      have hd : ∀ x < 10, Nat.digitChar x ≠ '}' := by decide
      exact hd x hx
  · have ho : ∀ c ∈ ("_output").data, c ≠ '}' := by decide
    exact ho c h

theorem taskOutKey_inj {m n : Nat} (h : taskOutKey m = taskOutKey n) : m = n := by
  have hd := congrArg String.data h
  simp only [taskOutKey, String.data_append] at hd
  have h1 := List.append_inj_left' hd rfl
  have h2 := List.append_inj_right h1 rfl
  exact natRepr_inj m n (String.ext h2)

theorem ne_of_data_head {a b : String} (h : a.data.head? ≠ b.data.head?) :
    a ≠ b :=
  fun he => h (by rw [he])

theorem ne_of_data_length {a b : String}
    (h : a.data.length ≠ b.data.length) : a ≠ b :=
  fun he => h (by rw [he])

theorem taskOutKey_head (n : Nat) : (taskOutKey n).data.head? = some 't' := by
  rw [taskOutKey, String.data_append]
  rfl

theorem decDigits_length_pos (n : Nat) : 0 < (decDigits n).length :=
  List.length_pos.mpr (decDigits_ne_nil n)

theorem taskOutKey_length (n : Nat) : 13 ≤ (taskOutKey n).data.length := by
  simp only [taskOutKey, String.data_append, List.length_append, natRepr_data]
  have := decDigits_length_pos n
  simp only [List.length_cons, List.length_nil]
  omega

theorem taskOutKey_ne_system_context (n : Nat) :
    taskOutKey n ≠ "system_context" := by
  apply ne_of_data_head
  rw [taskOutKey_head]
  decide

theorem taskOutKey_ne_task_prompt (n : Nat) : taskOutKey n ≠ "task_prompt" := by
  apply ne_of_data_length
  have := taskOutKey_length n
  have h11 : ("task_prompt").data.length = 11 := by decide
  omega

theorem taskOutKey_ne_chs (n : Nat) : taskOutKey n ≠ "chat_history_section" := by
  apply ne_of_data_head
  rw [taskOutKey_head]
  decide

theorem taskOutKey_ne_current_date (n : Nat) :
    taskOutKey n ≠ "current_date" := by
  apply ne_of_data_head
  rw [taskOutKey_head]
  decide

theorem taskOutKey_ne_current_time (n : Nat) :
    taskOutKey n ≠ "current_time" := by
  apply ne_of_data_head
  rw [taskOutKey_head]
  decide

theorem taskOutKey_ne_input_text (n : Nat) : taskOutKey n ≠ "input_text" := by
  apply ne_of_data_head
  rw [taskOutKey_head]
  decide

theorem get_task_input_eq_sets (tasks : List LLMTask) (wd : WorkflowData)
    (id : Nat) :
    get_task_input tasks wd id =
      dictSet
        (dictSet (dictSet wd ("system_context") (dictGetD wd (taskSysKey id) ""))
          ("task_prompt") (dictGetD wd (taskPromptKey id) ""))
        ("chat_history_section") (chat_history_section tasks wd id) := rfl

theorem get_task_input_other (tasks : List LLMTask) (wd : WorkflowData)
    (id : Nat) (k : String) (h1 : k ≠ "system_context")
    (h2 : k ≠ "task_prompt") (h3 : k ≠ "chat_history_section") :
    dictGet (get_task_input tasks wd id) k = dictGet wd k := by
  rw [get_task_input_eq_sets, dictGet_set_ne _ _ _ _ h3,
    dictGet_set_ne _ _ _ _ h2, dictGet_set_ne _ _ _ _ h1]

theorem get_task_input_sc (tasks : List LLMTask) (wd : WorkflowData)
    (id : Nat) :
    dictGet (get_task_input tasks wd id) ("system_context") =
      some (dictGetD wd (taskSysKey id) "") := by
  rw [get_task_input_eq_sets, dictGet_set_ne _ _ _ _ (by decide),
    dictGet_set_ne _ _ _ _ (by decide), dictGet_set_self]

theorem get_task_input_tp (tasks : List LLMTask) (wd : WorkflowData)
    (id : Nat) :
    dictGet (get_task_input tasks wd id) ("task_prompt") =
      some (dictGetD wd (taskPromptKey id) "") := by
  rw [get_task_input_eq_sets, dictGet_set_ne _ _ _ _ (by decide),
    dictGet_set_self]

theorem get_task_input_chs (tasks : List LLMTask) (wd : WorkflowData)
    (id : Nat) :
    dictGet (get_task_input tasks wd id) ("chat_history_section") =
      some (chat_history_section tasks wd id) := by
  rw [get_task_input_eq_sets, dictGet_set_self]

theorem chatHistoryRaw_eq (wd : WorkflowData) :
    ∀ (ts : List LLMTask) (i : Nat),
      chatHistoryRaw wd ts i = joinAll (chatBlocks wd ts i) := by
  intro ts
  induction ts with
  | nil => intro i; rfl
  | cons t rest ih =>
    intro i
    have hstep : chatHistoryRaw wd (t :: rest) i =
        chatBlock wd t i ++ chatHistoryRaw wd rest (i + 1) := rfl
    rw [hstep, ih]
    rfl

theorem chatBlocks_length (wd : WorkflowData) :
    ∀ (ts : List LLMTask) (i : Nat), (chatBlocks wd ts i).length = ts.length := by
  intro ts
  induction ts with
  | nil => intro i; rfl
  | cons t rest ih => intro i; simp [chatBlocks, ih]

theorem chatBlocks_get (wd : WorkflowData) :
    ∀ (ts : List LLMTask) (i j : Nat),
      (chatBlocks wd ts i).get? j =
        (ts.get? j).map (fun t => chatBlock wd t (i + j)) := by
  intro ts
  induction ts with
  | nil => intro i j; simp [chatBlocks]
  | cons t rest ih =>
    intro i j
    cases j with
    | zero => simp [chatBlocks]
    | succ j =>
      have harg : i + 1 + j = i + (j + 1) := by omega
      have h := ih (i + 1) j
      rw [harg] at h
      simpa [chatBlocks] using h

theorem generate_chat_history_eq (tasks : List LLMTask) (wd : WorkflowData) :
    generate_chat_history tasks wd = pyStrip (joinAll (chatBlocks wd tasks 1)) := by
  rw [generate_chat_history, chatHistoryRaw_eq]

theorem eventBlocks_begin_range :
    ∀ (frags : List (List String)) (k i : Nat),
      Event.taskBegin i ∈ eventBlocks k frags → k ≤ i ∧ i < k + frags.length := by
  intro frags
  induction frags with
  | nil => intro k i h; simp [eventBlocks] at h
  | cons f rest ih =>
    intro k i h
    simp [eventBlocks] at h
    rcases h with rfl | h
    · simp
    · have := ih (k + 1) i h
      simp
      omega

theorem eventBlocks_end_range :
    ∀ (frags : List (List String)) (k i : Nat),
      Event.taskEnd i ∈ eventBlocks k frags → k ≤ i ∧ i < k + frags.length := by
  intro frags
  induction frags with
  | nil => intro k i h; simp [eventBlocks] at h
  | cons f rest ih =>
    intro k i h
    simp [eventBlocks] at h
    rcases h with rfl | h
    · simp
    · have := ih (k + 1) i h
      simp
      omega

theorem eventBlocks_end_mem :
    ∀ (frags : List (List String)) (k i : Nat),
      k ≤ i → i < k + frags.length → Event.taskEnd i ∈ eventBlocks k frags := by
  intro frags
  induction frags with
  | nil => intro k i h1 h2; simp at h2; omega
  | cons f rest ih =>
    intro k i h1 h2
    by_cases hik : i = k
    · subst hik
      simp [eventBlocks]
    · have h1' : k + 1 ≤ i := by omega
      have h2' : i < (k + 1) + rest.length := by
        simp at h2
        omega
      simp [eventBlocks, hik]
      exact ih (k + 1) i h1' h2'

theorem map_eraseIdx {α β : Type} (f : α → β) :
    ∀ (l : List α) (i : Nat), (l.eraseIdx i).map f = (l.map f).eraseIdx i := by
  intro l
  induction l with
  | nil => intro i; simp
  | cons a rest ih =>
    intro i
    cases i with
    | zero => simp
    | succ i => simp [ih]

theorem applyOps_tasks :
    ∀ (ops : List TaskOp) (st : SessionState) (defs : List (String × String)),
      st.tasks = defs.map (fun p => ⟨taskTemplateFormat p.1 p.2⟩) →
      (applyOps st ops).tasks =
        (survivors defs ops).map (fun p => ⟨taskTemplateFormat p.1 p.2⟩) := by
  intro ops
  induction ops with
  | nil => intro st defs h; simpa [applyOps, survivors] using h
  | cons op rest ih =>
    intro st defs h
    cases op with
    | add sc tp =>
      have : (applyOp st (TaskOp.add sc tp)).tasks =
          (defs ++ [(sc, tp)]).map (fun p => ⟨taskTemplateFormat p.1 p.2⟩) := by
        simp [applyOp, add_task, h]
      simpa [applyOps, survivors] using
        ih (applyOp st (TaskOp.add sc tp)) (defs ++ [(sc, tp)]) this
    | del idx =>
      have : (applyOp st (TaskOp.del idx)).tasks =
          (defs.eraseIdx idx).map (fun p => ⟨taskTemplateFormat p.1 p.2⟩) := by
        simp [applyOp, delete_task, h, map_eraseIdx]
      simpa [applyOps, survivors] using
        ih (applyOp st (TaskOp.del idx)) (defs.eraseIdx idx) this

theorem string_mk_data (s : String) : String.mk s.data = s :=
  String.ext rfl

theorem renderGo_scan_found (d : WorkflowData) :
    ∀ (k acc post : List Char) (v : String),
      (∀ c ∈ k, c ≠ '}') →
      dictGet d (String.mk (acc.reverse ++ k)) = some v →
      renderGo d (k ++ ('}' :: post)) (some acc) =
        v.data ++ renderGo d post none := by
  intro k
  induction k with
  | nil =>
    intro acc post v _ hv
    simp only [List.append_nil] at hv
    simp [renderGo, hv]
  | cons c k ih =>
    intro acc post v hk hv
    have hc : c ≠ '}' := hk c (by simp)
    have hv' : dictGet d (String.mk ((c :: acc).reverse ++ k)) = some v := by
      rw [List.reverse_cons, List.append_assoc, List.singleton_append]
      exact hv
    show renderGo d (c :: (k ++ ('}' :: post))) (some acc) = _
    simp only [renderGo, if_neg hc]
    exact ih (c :: acc) post v (fun x hx => hk x (by simp [hx])) hv'

theorem renderGo_subst (d : WorkflowData) :
    ∀ (pre k post : List Char) (v : String),
      (∀ c ∈ pre, c ≠ '{') →
      (∀ c ∈ k, c ≠ '}') →
      dictGet d (String.mk k) = some v →
      renderGo d (pre ++ ('{' :: (k ++ ('}' :: post)))) none =
        pre ++ (v.data ++ renderGo d post none) := by
  intro pre
  induction pre with
  | nil =>
    intro k post v _ hk hv
    simp only [List.nil_append]
    show renderGo d ('{' :: (k ++ ('}' :: post))) none = _
    simp only [renderGo, if_pos rfl]
    exact renderGo_scan_found d k [] post v hk (by simpa using hv)
  | cons c pre ih =>
    intro k post v hpre hk hv
    have hc : c ≠ '{' := hpre c (by simp)
    show renderGo d (c :: (pre ++ _)) none = _
    simp only [renderGo, if_neg hc, List.cons_append]
    rw [ih k post v (fun x hx => hpre x (by simp [hx])) hk hv]

theorem renderTemplate_subst (s : String) (d : WorkflowData)
    (pre post : List Char) (N : Nat) (v : String)
    (hs : s.data = pre ++ ((taskOutPlaceholder N).data ++ post))
    (hpre : ∀ c ∈ pre, c ≠ '{')
    (hv : dictGet d (taskOutKey N) = some v) :
    renderTemplate s d = String.mk (pre ++ (v.data ++ renderGo d post none)) := by
  have hdata : (taskOutPlaceholder N).data ++ post =
      '{' :: ((taskOutKey N).data ++ ('}' :: post)) := by
    simp [taskOutPlaceholder, String.data_append, List.append_assoc]
  simp only [renderTemplate]
  rw [hs, hdata]
  rw [renderGo_subst d pre (taskOutKey N).data post v hpre
    (taskOutKey_no_close N) (by rw [string_mk_data]; exact hv)]

theorem streamRun_nil (gen : GenCapability) (all : List LLMTask) (k : Nat)
    (wd : WorkflowData) : streamRun gen all [] k wd = ⟨[], [], wd, true⟩ := rfl

theorem streamRun_cons (gen : GenCapability) (all : List LLMTask)
    (t : LLMTask) (rest : List LLMTask) (k : Nat) (wd : WorkflowData) :
    streamRun gen all (t :: rest) k wd =
      if (gen k (renderTemplate t.template (get_task_input all wd k))).ok then
        ⟨(TraceStep.mk (Event.taskBegin k) wd ::
            (gen k (renderTemplate t.template
              (get_task_input all wd k))).fragments.map
              (fun f => TraceStep.mk (Event.contentFragment f) wd)) ++
            TraceStep.mk (Event.taskEnd k) wd ::
              (streamRun gen all rest (k + 1)
                (dictSet wd (taskOutKey k)
                  (joinAll (gen k (renderTemplate t.template
                    (get_task_input all wd k))).fragments))).trace,
          renderTemplate t.template (get_task_input all wd k) ::
            (streamRun gen all rest (k + 1)
              (dictSet wd (taskOutKey k)
                (joinAll (gen k (renderTemplate t.template
                  (get_task_input all wd k))).fragments))).prompts,
          (streamRun gen all rest (k + 1)
            (dictSet wd (taskOutKey k)
              (joinAll (gen k (renderTemplate t.template
                (get_task_input all wd k))).fragments))).store,
          (streamRun gen all rest (k + 1)
            (dictSet wd (taskOutKey k)
              (joinAll (gen k (renderTemplate t.template
                (get_task_input all wd k))).fragments))).ok⟩
      else
        ⟨TraceStep.mk (Event.taskBegin k) wd ::
            (gen k (renderTemplate t.template
              (get_task_input all wd k))).fragments.map
              (fun f => TraceStep.mk (Event.contentFragment f) wd),
          [renderTemplate t.template (get_task_input all wd k)], wd, false⟩ := by
  show (if (gen k (renderTemplate t.template (get_task_input all wd k))).ok
    then _ else _) = _
  rfl

theorem streamRun_frame (gen : GenCapability) (all : List LLMTask) :
    ∀ (rem : List LLMTask) (k : Nat) (wd : WorkflowData) (key : String),
      (∀ i, k ≤ i → key ≠ taskOutKey i) →
      dictGet (streamRun gen all rem k wd).store key = dictGet wd key ∧
      (∀ step ∈ (streamRun gen all rem k wd).trace,
        dictGet step.store key = dictGet wd key) := by
  intro rem
  induction rem with
  | nil =>
    intro k wd key _
    refine ⟨rfl, ?_⟩
    intro step hstep
    simp [streamRun_nil] at hstep
  | cons t rest ih =>
    intro k wd key hkey
    have hset : dictGet (dictSet wd (taskOutKey k)
        (joinAll (gen k (renderTemplate t.template
          (get_task_input all wd k))).fragments)) key = dictGet wd key :=
      dictGet_set_ne _ _ _ _ (hkey k (Nat.le_refl k))
    cases hok : (gen k (renderTemplate t.template (get_task_input all wd k))).ok with
    | false =>
      rw [streamRun_cons]
      simp only [hok, Bool.false_eq_true, if_false]
      refine ⟨by simp, ?_⟩
      intro step hstep
      simp only [List.mem_cons, List.mem_map] at hstep
      rcases hstep with rfl | ⟨f, _, rfl⟩ <;> rfl
    | true =>
      obtain ⟨ihs, iht⟩ := ih (k + 1)
        (dictSet wd (taskOutKey k)
          (joinAll (gen k (renderTemplate t.template
            (get_task_input all wd k))).fragments)) key
        (fun i hi => hkey i (by omega))
      rw [streamRun_cons]
      simp only [hok, if_true]
      constructor
      · rw [ihs, hset]
      · intro step hstep
        simp only [List.mem_append, List.mem_cons, List.mem_map] at hstep
        rcases hstep with (rfl | ⟨f, _, rfl⟩) | rfl | hstep
        · rfl
        · rfl
        · rfl
        · rw [iht step hstep, hset]

theorem streamRun_shape_ok (gen : GenCapability) (all : List LLMTask) :
    ∀ (rem : List LLMTask) (k : Nat) (wd : WorkflowData),
      (streamRun gen all rem k wd).ok = true →
      ∃ frags : List (List String),
        frags.length = rem.length ∧
        (streamRun gen all rem k wd).trace.map TraceStep.event =
          eventBlocks k frags ∧
        (streamRun gen all rem k wd).prompts.length = rem.length := by
  intro rem
  induction rem with
  | nil =>
    intro k wd _
    exact ⟨[], rfl, rfl, rfl⟩
  | cons t rest ih =>
    intro k wd hrun
    cases hok : (gen k (renderTemplate t.template (get_task_input all wd k))).ok with
    | false =>
      rw [streamRun_cons] at hrun
      simp only [hok, Bool.false_eq_true, if_false] at hrun
    | true =>
      rw [streamRun_cons] at hrun
      simp only [hok, if_true] at hrun
      obtain ⟨frags, hlen, hmap, hplen⟩ := ih (k + 1)
        (dictSet wd (taskOutKey k)
          (joinAll (gen k (renderTemplate t.template
            (get_task_input all wd k))).fragments)) hrun
      refine ⟨(gen k (renderTemplate t.template
        (get_task_input all wd k))).fragments :: frags, by simp [hlen], ?_, ?_⟩
      · rw [streamRun_cons]
        simp only [hok, if_true, eventBlocks]
        simp [List.map_append, List.map_map, hmap]
      · rw [streamRun_cons]
        simp only [hok, if_true]
        simp [hplen]

theorem streamRun_begin_info (gen : GenCapability) (all : List LLMTask) :
    ∀ (rem : List LLMTask) (k : Nat) (wd : WorkflowData) (j : Nat)
      (wdj : WorkflowData),
      TraceStep.mk (Event.taskBegin j) wdj ∈ (streamRun gen all rem k wd).trace →
      k ≤ j ∧ j < k + rem.length ∧
      ∃ tj, rem.get? (j - k) = some tj ∧
        (streamRun gen all rem k wd).prompts.get? (j - k) =
          some (renderTemplate tj.template (get_task_input all wdj j)) := by
  intro rem
  induction rem with
  | nil =>
    intro k wd j wdj hmem
    simp [streamRun_nil] at hmem
  | cons t rest ih =>
    intro k wd j wdj hmem
    cases hok : (gen k (renderTemplate t.template (get_task_input all wd k))).ok with
    | false =>
      rw [streamRun_cons] at hmem
      simp only [hok, Bool.false_eq_true, if_false, List.mem_cons,
        List.mem_map] at hmem
      rcases hmem with heq | ⟨f, _, heq⟩
      · obtain ⟨hev, hst⟩ : Event.taskBegin j = Event.taskBegin k ∧ wdj = wd := by
          injection heq with h1 h2; exact ⟨h1, h2⟩
        obtain rfl : j = k := by injection hev
        subst hst
        refine ⟨Nat.le_refl j, by simp, t, ?_, ?_⟩
        · simp
        · rw [streamRun_cons]
          simp [hok]
      · exact absurd (congrArg TraceStep.event heq) (by simp)
    | true =>
      rw [streamRun_cons] at hmem
      simp only [hok, if_true, List.mem_append, List.mem_cons,
        List.mem_map] at hmem
      rcases hmem with (heq | ⟨f, _, heq⟩) | heq | hmem
      · obtain ⟨hev, hst⟩ : Event.taskBegin j = Event.taskBegin k ∧ wdj = wd := by
          injection heq with h1 h2; exact ⟨h1, h2⟩
        obtain rfl : j = k := by injection hev
        subst hst
        refine ⟨Nat.le_refl j, by simp, t, ?_, ?_⟩
        · simp
        · rw [streamRun_cons]
          simp [hok]
      · exact absurd (congrArg TraceStep.event heq) (by simp)
      · exact absurd (congrArg TraceStep.event heq) (by simp)
      · obtain ⟨h1, h2, tj, h3, h4⟩ := ih (k + 1) _ j wdj hmem
        have hjk : 1 ≤ j - k := by omega
        have hsub : j - k = (j - (k + 1)) + 1 := by omega
        refine ⟨by omega, by simp; omega, tj, ?_, ?_⟩
        · rw [hsub]
          simpa using h3
        · rw [streamRun_cons]
          simp only [hok, if_true]
          rw [hsub]
          simpa using h4

theorem streamRun_begin_outputs (gen : GenCapability) (all : List LLMTask) :
    ∀ (rem : List LLMTask) (k : Nat) (wd : WorkflowData) (j : Nat)
      (wdj : WorkflowData),
      TraceStep.mk (Event.taskBegin j) wdj ∈ (streamRun gen all rem k wd).trace →
      ∀ N, k ≤ N → N < j →
        ∃ pN, (streamRun gen all rem k wd).prompts.get? (N - k) = some pN ∧
          dictGet wdj (taskOutKey N) = some (joinAll (gen N pN).fragments) := by
  intro rem
  induction rem with
  | nil =>
    intro k wd j wdj hmem
    simp [streamRun_nil] at hmem
  | cons t rest ih =>
    intro k wd j wdj hmem N hNk hNj
    cases hok : (gen k (renderTemplate t.template (get_task_input all wd k))).ok with
    | false =>
      rw [streamRun_cons] at hmem
      simp only [hok, Bool.false_eq_true, if_false, List.mem_cons,
        List.mem_map] at hmem
      rcases hmem with heq | ⟨f, _, heq⟩
      · obtain ⟨hev, _⟩ : Event.taskBegin j = Event.taskBegin k ∧ wdj = wd := by
          injection heq with h1 h2; exact ⟨h1, h2⟩
        obtain rfl : j = k := by injection hev
        omega
      · exact absurd (congrArg TraceStep.event heq) (by simp)
    | true =>
      rw [streamRun_cons] at hmem
      simp only [hok, if_true, List.mem_append, List.mem_cons,
        List.mem_map] at hmem
      rcases hmem with (heq | ⟨f, _, heq⟩) | heq | hmem
      · obtain ⟨hev, _⟩ : Event.taskBegin j = Event.taskBegin k ∧ wdj = wd := by
          injection heq with h1 h2; exact ⟨h1, h2⟩
        obtain rfl : j = k := by injection hev
        omega
      · exact absurd (congrArg TraceStep.event heq) (by simp)
      · exact absurd (congrArg TraceStep.event heq) (by simp)
      · by_cases hNeq : N = k
        · subst hNeq
          refine ⟨renderTemplate t.template (get_task_input all wd N), ?_, ?_⟩
          · rw [streamRun_cons]
            simp [hok]
          · have hframe := (streamRun_frame gen all rest (N + 1)
              (dictSet wd (taskOutKey N)
                (joinAll (gen N (renderTemplate t.template
                  (get_task_input all wd N))).fragments))
              (taskOutKey N)
              (fun i hi => fun hcon => by
                have := taskOutKey_inj hcon
                omega)).2
            have := hframe (TraceStep.mk (Event.taskBegin j) wdj) hmem
            simp only [TraceStep.mk] at this
            rw [this, dictGet_set_self]
        · have hNk' : k + 1 ≤ N := by omega
          obtain ⟨pN, hp, hout⟩ := ih (k + 1) _ j wdj hmem N hNk' hNj
          have hsub : N - k = (N - (k + 1)) + 1 := by omega
          refine ⟨pN, ?_, hout⟩
          rw [streamRun_cons]
          simp only [hok, if_true]
          rw [hsub]
          simpa using hp

theorem streamRun_fail (gen : GenCapability) (all : List LLMTask) :
    ∀ (rem : List LLMTask) (k : Nat) (wd : WorkflowData) (K : Nat),
      k ≤ K → K < k + rem.length →
      (∀ i s, k ≤ i → i < K → (gen i s).ok = true) →
      (∀ s, (gen K s).ok = false) →
      ∃ (frags : List (List String)) (fragsK : List String),
        frags.length = K - k ∧
        (streamRun gen all rem k wd).trace.map TraceStep.event =
          eventBlocks k frags ++
            (Event.taskBegin K :: fragsK.map Event.contentFragment) ∧
        (streamRun gen all rem k wd).ok = false ∧
        (∀ i, k ≤ i → i < K →
          ∃ v, dictGet (streamRun gen all rem k wd).store (taskOutKey i) =
            some v) ∧
        dictGet (streamRun gen all rem k wd).store (taskOutKey K) =
          dictGet wd (taskOutKey K) := by
  intro rem
  induction rem with
  | nil =>
    intro k wd K h1 h2 _ _
    simp at h2
    omega
  | cons t rest ih =>
    intro k wd K hkK hKlen hbefore hfail
    by_cases hkeq : K = k
    · subst hkeq
      have hok : (gen K (renderTemplate t.template
          (get_task_input all wd K))).ok = false := hfail _
      refine ⟨[], (gen K (renderTemplate t.template
        (get_task_input all wd K))).fragments, by simp, ?_, ?_, ?_, ?_⟩
      · rw [streamRun_cons]
        simp only [hok, Bool.false_eq_true, if_false]
        simp [eventBlocks, List.map_map]
        try rfl
      · rw [streamRun_cons]
        simp [hok]
      · intro i hi1 hi2
        omega
      · rw [streamRun_cons]
        simp [hok]
    · have hkK' : k < K := by omega
      have hok : (gen k (renderTemplate t.template
          (get_task_input all wd k))).ok = true :=
        hbefore k _ (Nat.le_refl k) hkK'
      have hKlen' : K < (k + 1) + rest.length := by
        simp at hKlen
        omega
      obtain ⟨frags, fragsK, hl, hmap, hko, houts, huntouched⟩ :=
        ih (k + 1)
          (dictSet wd (taskOutKey k)
            (joinAll (gen k (renderTemplate t.template
              (get_task_input all wd k))).fragments))
          K (by omega) hKlen'
          (fun i s hi1 hi2 => hbefore i s (by omega) hi2) hfail
      refine ⟨(gen k (renderTemplate t.template
        (get_task_input all wd k))).fragments :: frags, fragsK,
        by simp [hl]; omega, ?_, ?_, ?_, ?_⟩
      · rw [streamRun_cons]
        simp only [hok, if_true, eventBlocks]
        simp [List.map_append, List.map_map, hmap]
      · rw [streamRun_cons]
        simp only [hok, if_true]
        exact hko
      · intro i hi1 hi2
        rw [streamRun_cons]
        simp only [hok, if_true]
        by_cases hieq : i = k
        · subst hieq
          have hframe := (streamRun_frame gen all rest (i + 1)
            (dictSet wd (taskOutKey i)
              (joinAll (gen i (renderTemplate t.template
                (get_task_input all wd i))).fragments))
            (taskOutKey i)
            (fun m hm => fun hcon => by
              have := taskOutKey_inj hcon
              omega)).1
          rw [hframe, dictGet_set_self]
          exact ⟨_, rfl⟩
        · exact houts i (by omega) hi2
      · rw [streamRun_cons]
        simp only [hok, if_true]
        rw [huntouched,
          dictGet_set_ne _ _ _ _ (fun hcon => hkeq (taskOutKey_inj hcon))]

theorem firstIdxOf_le (pat l : List Char) :
    ∀ i, firstIdxOf pat l = some i → i + pat.length ≤ l.length := by
  induction l with
  | nil =>
    intro i h
    simp only [firstIdxOf] at h
    by_cases hp : pat.isPrefixOf ([] : List Char)
    · rw [if_pos hp] at h
      obtain rfl : (0 : Nat) = i := by injection h
      cases pat with
      | nil => simp
      | cons c cs => simp [List.isPrefixOf] at hp
    · rw [if_neg hp] at h
      exact absurd h (by simp)
  | cons c rest ih =>
    intro i h
    simp only [firstIdxOf] at h
    by_cases hp : pat.isPrefixOf (c :: rest)
    · rw [if_pos hp] at h
      obtain rfl : (0 : Nat) = i := by injection h
      have := List.IsPrefix.length_le (List.isPrefixOf_iff_prefix.mp hp)
      simpa using this
    · rw [if_neg hp] at h
      rcases Option.map_eq_some'.mp h with ⟨i', hi', rfl⟩
      have := ih i' hi'
      simp
      omega

theorem extract_user_prompt_found (s : String) (p q : Nat)
    (hp : pyFind s ("<user>") = some p) (hq : pyFind s ("</user>") = some q) :
    extract_user_prompt s =
      pyStrip (String.mk ((s.data.take q).drop (p + 6))) := by
  have hpl := firstIdxOf_le ("<user>").data s.data p hp
  have hql := firstIdxOf_le ("</user>").data s.data q hq
  have h6 : ("<user>").data.length = 6 := by decide
  have h7 : ("</user>").data.length = 7 := by decide
  rw [h6] at hpl
  rw [h7] at hql
  unfold extract_user_prompt pySlice
  simp only [pyFindInt, hp, hq]
  have hc1 : pyClampIndex s.data.length ((p : Int) + 6) = p + 6 := by
    unfold pyClampIndex
    rw [if_neg (by omega)]
    omega
  have hc2 : pyClampIndex s.data.length ((q : Int)) = q := by
    unfold pyClampIndex
    rw [if_neg (by omega)]
    omega
  rw [hc1, hc2]

theorem extract_user_prompt_absent (s : String)
    (hp : pyFind s ("<user>") = none) (hq : pyFind s ("</user>") = none) :
    extract_user_prompt s =
      pyStrip (String.mk ((s.data.take (s.data.length - 1)).drop 5)) := by
  unfold extract_user_prompt pySlice
  simp only [pyFindInt, hp, hq]
  have hc1 : pyClampIndex s.data.length ((-1 : Int) + 6) = min 5 s.data.length := by
    unfold pyClampIndex
    rw [if_neg (by omega)]
    omega
  have hc2 : pyClampIndex s.data.length (-1 : Int) = s.data.length - 1 := by
    unfold pyClampIndex
    rw [if_pos (by omega)]
    omega
  rw [hc1, hc2]
  by_cases hlen : 5 ≤ s.data.length
  · rw [Nat.min_eq_left hlen]
  · have h1 : (s.data.take (s.data.length - 1)).drop (min 5 s.data.length) = [] := by
      apply List.drop_eq_nil_of_le
      simp
      have hsl : s.data.length = s.length := rfl
      omega
    have h2 : (s.data.take (s.data.length - 1)).drop 5 = [] := by
      apply List.drop_eq_nil_of_le
      simp
      have hsl : s.data.length = s.length := rfl
      omega
    rw [h1, h2]

/-- C5 (amended): `extract_user_prompt` is delimiter-based on the FIRST
`<user>`/`</user>` markers: when both are present it returns the stripped
text strictly between the end of the first open marker and the first
close marker. When both markers are absent, however, it does NOT return
empty content: Python `find` returns the sentinel `-1`, so the function
returns the stripped slice `s[5:-1]` (characters 5 through `len(s)-2`),
which is non-empty in general (see the counterexample). -/
theorem C5_thm (s : String) :
    (∀ p q : Nat, pyFind s ("<user>") = some p →
      pyFind s ("</user>") = some q →
      extract_user_prompt s =
        pyStrip (String.mk ((s.data.take q).drop (p + 6)))) ∧
    (pyFind s ("<user>") = none → pyFind s ("</user>") = none →
      extract_user_prompt s =
        pyStrip (String.mk ((s.data.take (s.data.length - 1)).drop 5))) := by
  constructor
  · intro p q hp hq
    exact extract_user_prompt_found s p q hp hq
  · intro hp hq
    exact extract_user_prompt_absent s hp hq

/-- C5: the claim as stated is false: on a string with no user-segment
markers at all, `extract_user_prompt` returns "fg" (the stripped slice
`s[5:-1]`), not the empty content the claim requires. -/
theorem C5_counterexample :
    pyFind ("abcdefgh") ("<user>") = none ∧
    pyFind ("abcdefgh") ("</user>") = none ∧
    extract_user_prompt ("abcdefgh") = "fg" ∧
    extract_user_prompt ("abcdefgh") ≠ "" := by
  decide

/-- Witness for C5's amended theorem at a concrete input: both markers
present, first occurrences at 0 and 8, stripped inner text "hi". -/
theorem C5_witness :
    extract_user_prompt ("<user>hi</user>") =
      pyStrip (String.mk ((("<user>hi</user>").data.take 8).drop (0 + 6))) :=
  (C5_thm ("<user>hi</user>")).1 0 8 (by decide) (by decide)

/-- C7: registering the m-th reference of a kind names it
`<kind>_ref_m` where m is one more than the count of saved references of
that kind, appends it to that kind's saved list, and stores the payload
verbatim in the workflow data under that name; two successive search
registrations in a fresh session yield `search_ref_1` and `search_ref_2`
with both payloads retrievable. -/
theorem C7_thm (st : SessionState) (q res dom raw ra rb : String) :
    (register_search st q res).saved_searches =
      st.saved_searches ++
        [("search_ref_" ++ Nat.repr (st.saved_searches.length + 1), q, res)] ∧
    dictGet (register_search st q res).workflow_data
      ("search_ref_" ++ Nat.repr (st.saved_searches.length + 1)) = some res ∧
    (register_scrape st dom raw).saved_scrapes =
      st.saved_scrapes ++
        [("scrape_ref_" ++ Nat.repr (st.saved_scrapes.length + 1), dom, raw)] ∧
    dictGet (register_scrape st dom raw).workflow_data
      ("scrape_ref_" ++ Nat.repr (st.saved_scrapes.length + 1)) = some raw ∧
    (register_search (register_search initialSession ("a") ra) ("b") rb).saved_searches =
      [("search_ref_1", "a", ra), ("search_ref_2", "b", rb)] ∧
    dictGet (register_search (register_search initialSession ("a") ra) ("b") rb).workflow_data
      ("search_ref_1") = some ra ∧
    dictGet (register_search (register_search initialSession ("a") ra) ("b") rb).workflow_data
      ("search_ref_2") = some rb := by
  have hname1 : "search_ref_" ++ Nat.repr 1 = "search_ref_1" := by decide
  have hname2 : "search_ref_" ++ Nat.repr 2 = "search_ref_2" := by decide
  have hne : ("search_ref_1" : String) ≠ "search_ref_2" := by decide
  have e1 : register_search initialSession ("a") ra =
      ⟨[], [("search_ref_1", ra)], [("search_ref_1", "a", ra)], []⟩ := by
    rw [register_search]
    simp [initialSession, hname1, dictSet]
  have e2 : register_search (register_search initialSession ("a") ra) ("b") rb =
      ⟨[], [("search_ref_1", ra), ("search_ref_2", rb)],
        [("search_ref_1", "a", ra), ("search_ref_2", "b", rb)], []⟩ := by
    rw [e1, register_search]
    simp [hname2, dictSet, hne]
  refine ⟨rfl, ?_, rfl, ?_, ?_, ?_, ?_⟩
  · exact dictGet_set_self _ _ _
  · exact dictGet_set_self _ _ _
  · rw [e2]
  · rw [e2]
    simp [dictGet]
  · rw [e2]
    simp [dictGet, hne]

/-- C9: building a task's render-time view is a read-only projection:
the merged view agrees with the shared store on every key other than the
three per-task overrides, and binds exactly those three override keys;
the shared store itself is a value that `get_task_input` only reads
(mirroring Python's non-mutating dict union `wd | -...-`). -/
theorem C9_thm (tasks : List LLMTask) (wd : WorkflowData) (id : Nat) :
    (∀ k : String, k ≠ "system_context" → k ≠ "task_prompt" →
      k ≠ "chat_history_section" →
      dictGet (get_task_input tasks wd id) k = dictGet wd k) ∧
    dictGet (get_task_input tasks wd id) ("system_context") =
      some (dictGetD wd (taskSysKey id) "") ∧
    dictGet (get_task_input tasks wd id) ("task_prompt") =
      some (dictGetD wd (taskPromptKey id) "") ∧
    dictGet (get_task_input tasks wd id) ("chat_history_section") =
      some (chat_history_section tasks wd id) :=
  ⟨fun k h1 h2 h3 => get_task_input_other tasks wd id k h1 h2 h3,
    get_task_input_sc tasks wd id, get_task_input_tp tasks wd id,
    get_task_input_chs tasks wd id⟩

/-- Witness for C9 at concrete inputs: the view passes `input_text`
through unchanged and overrides the three per-task keys. -/
theorem C9_witness :
    dictGet (get_task_input sessionDemo.tasks wdDemoAtTask2 2) ("input_text") =
      dictGet wdDemoAtTask2 ("input_text") ∧
    dictGet (get_task_input sessionDemo.tasks wdDemoAtTask2 2)
      ("system_context") = some (dictGetD wdDemoAtTask2 (taskSysKey 2) "") :=
  ⟨(C9_thm sessionDemo.tasks wdDemoAtTask2 2).1 ("input_text") (by decide)
      (by decide) (by decide),
    (C9_thm sessionDemo.tasks wdDemoAtTask2 2).2.1⟩

/-- C10: assembling a task's inputs and chat history totalizes absent
task-scoped keys to the empty string: a missing `task_i_output` yields an
empty assistant text (its "User/Assistant" block is still contributed),
and missing `task_id_system_context` / `task_id_task_prompt` keys make
the view bind the overrides to the empty string. -/
theorem C10_thm (tasks : List LLMTask) (t : LLMTask) (rest : List LLMTask)
    (wd : WorkflowData) (i id : Nat)
    (hout : dictGet wd (taskOutKey i) = none)
    (hsys : dictGet wd (taskSysKey id) = none)
    (htp : dictGet wd (taskPromptKey id) = none) :
    dictGetD wd (taskOutKey i) "" = "" ∧
    chatHistoryRaw wd (t :: rest) i =
      ("User: " ++ extract_user_prompt t.template ++ "\nAssistant: " ++
        "\n\n") ++ chatHistoryRaw wd rest (i + 1) ∧
    dictGet (get_task_input tasks wd id) ("system_context") = some ("") ∧
    dictGet (get_task_input tasks wd id) ("task_prompt") = some ("") := by
  have hd : dictGetD wd (taskOutKey i) "" = "" := by
    rw [dictGetD, hout]
    rfl
  refine ⟨hd, ?_, ?_, ?_⟩
  · have hstep : chatHistoryRaw wd (t :: rest) i =
        "User: " ++ extract_user_prompt t.template ++ "\nAssistant: " ++
          dictGetD wd (taskOutKey i) "" ++ "\n\n" ++
          chatHistoryRaw wd rest (i + 1) := rfl
    rw [hstep, hd]
    simp [String.append_empty]
  · rw [get_task_input_sc]
    rw [dictGetD, hsys]
    rfl
  · rw [get_task_input_tp]
    rw [dictGetD, htp]
    rfl

/-- Witness for C10 at concrete inputs: task 3 has no recorded output,
system context or task prompt in the store below. -/
theorem C10_witness :
    dictGetD wdDemoAtTask2 (taskOutKey 3) "" = "" ∧
    chatHistoryRaw wdDemoAtTask2 [⟨taskTemplateFormat ("s") ("p")⟩] 3 =
      ("User: " ++
        extract_user_prompt (⟨taskTemplateFormat ("s") ("p")⟩ : LLMTask).template ++
        "\nAssistant: " ++ "\n\n") ++ chatHistoryRaw wdDemoAtTask2 [] 4 ∧
    dictGet (get_task_input sessionDemo.tasks wdDemoAtTask2 3)
      ("system_context") = some ("") ∧
    dictGet (get_task_input sessionDemo.tasks wdDemoAtTask2 3)
      ("task_prompt") = some ("") :=
  C10_thm sessionDemo.tasks (⟨taskTemplateFormat ("s") ("p")⟩) []
    wdDemoAtTask2 3 3 (by decide) (by decide) (by decide)

/-- C3: the chat-history section supplied to task 1 is the empty
string; for task k > 1 it is the fixed header plus the stripped
concatenation of exactly k-1 "User/Assistant" blocks, one per prior
task, in task order, each pairing that prior task's extracted user
segment with its recorded output (`task_<i>_output`) from the data
store. -/
theorem C3_thm (tasks : List LLMTask) (wd : WorkflowData) (k : Nat)
    (hk1 : 2 ≤ k) (hk2 : k ≤ tasks.length) :
    chat_history_section tasks wd 1 = "" ∧
    chat_history_section tasks wd k =
      "Here's the chat history so far:\n" ++
        pyStrip (joinAll (chatBlocks wd (tasks.take (k - 1)) 1)) ∧
    (chatBlocks wd (tasks.take (k - 1)) 1).length = k - 1 ∧
    ∀ j : Nat, (chatBlocks wd (tasks.take (k - 1)) 1).get? j =
      ((tasks.take (k - 1)).get? j).map (fun t => chatBlock wd t (1 + j)) := by
  refine ⟨rfl, ?_, ?_, ?_⟩
  · rw [chat_history_section, if_neg (by omega), generate_chat_history_eq]
  · rw [chatBlocks_length, List.length_take]
    omega
  · intro j
    exact chatBlocks_get wd (tasks.take (k - 1)) 1 j

/-- Witness for C3 in the three-task demo session at k = 3: the first
task's section is empty, and the chat history for task 3 consists of
exactly two blocks, one per prior task. -/
theorem C3_witness :
    chat_history_section sessionDemo3.tasks wdDemoAtTask2 1 = "" ∧
    chat_history_section sessionDemo3.tasks wdDemoAtTask2 3 =
      "Here's the chat history so far:\n" ++
        pyStrip (joinAll (chatBlocks wdDemoAtTask2
          (sessionDemo3.tasks.take (3 - 1)) 1)) ∧
    (chatBlocks wdDemoAtTask2 (sessionDemo3.tasks.take (3 - 1)) 1).length =
      3 - 1 ∧
    ∀ j : Nat,
      (chatBlocks wdDemoAtTask2 (sessionDemo3.tasks.take (3 - 1)) 1).get? j =
        ((sessionDemo3.tasks.take (3 - 1)).get? j).map
          (fun t => chatBlock wdDemoAtTask2 t (1 + j)) :=
  C3_thm sessionDemo3.tasks wdDemoAtTask2 3 (by decide) (by decide)

/-- C6: a run of N tasks that completes without a provider error emits
exactly N TaskBegin/TaskEnd pairs, strictly nested and ordered 1..N, each
task's ContentFragment events strictly between its pair and nothing else
anywhere (`eventBlocks` makes this shape explicit, including that
`TaskEnd(N)` precedes `TaskBegin(N+1)`). -/
theorem C6_thm (gen : GenCapability) (st : SessionState)
    (input date time : String)
    (hok : (run_workflow gen st input date time).ok = true) :
    ∃ frags : List (List String),
      frags.length = st.tasks.length ∧
      (run_workflow gen st input date time).trace.map TraceStep.event =
        eventBlocks 1 frags := by
  simp only [run_workflow] at hok ⊢
  obtain ⟨frags, h1, h2, _⟩ := streamRun_shape_ok gen st.tasks st.tasks 1 _ hok
  exact ⟨frags, h1, h2⟩

/-- Witness for C6: the two-task demo run completes and its event
sequence has the nested two-block shape. -/
theorem C6_witness :
    (run_workflow genDemo sessionDemo ("inp") ("D") ("T")).ok = true ∧
    ∃ frags : List (List String),
      frags.length = sessionDemo.tasks.length ∧
      (run_workflow genDemo sessionDemo ("inp") ("D") ("T")).trace.map
        TraceStep.event = eventBlocks 1 frags :=
  ⟨by decide, C6_thm genDemo sessionDemo ("inp") ("D") ("T") (by decide)⟩

/-- C8: `current_date` and `current_time` are written once at run
start (by `update_workflow_data`) and never touched again during the
run: the store paired with every delivered event, and the final store,
carry the same wall-clock snapshot, and the render-time view passes both
keys through unchanged, so every task of the run reads the same
values. -/
theorem C8_thm (gen : GenCapability) (st : SessionState)
    (input date time : String) :
    (∀ step ∈ (run_workflow gen st input date time).trace,
      dictGet step.store ("current_date") = some date ∧
      dictGet step.store ("current_time") = some time) ∧
    dictGet (run_workflow gen st input date time).store ("current_date") =
      some date ∧
    dictGet (run_workflow gen st input date time).store ("current_time") =
      some time ∧
    (∀ (wd' : WorkflowData) (id : Nat),
      dictGet (get_task_input st.tasks wd' id) ("current_date") =
        dictGet wd' ("current_date") ∧
      dictGet (get_task_input st.tasks wd' id) ("current_time") =
        dictGet wd' ("current_time")) := by
  simp only [run_workflow]
  have hwd0d : dictGet
      (dictSet (dictSet (dictSet st.workflow_data ("input_text") input)
        ("current_date") date) ("current_time") time) ("current_date") =
      some date := by
    rw [dictGet_set_ne _ _ _ _ (by decide), dictGet_set_self]
  have hwd0t : dictGet
      (dictSet (dictSet (dictSet st.workflow_data ("input_text") input)
        ("current_date") date) ("current_time") time) ("current_time") =
      some time := dictGet_set_self _ _ _
  have hfd := streamRun_frame gen st.tasks st.tasks 1
    (dictSet (dictSet (dictSet st.workflow_data ("input_text") input)
      ("current_date") date) ("current_time") time) ("current_date")
    (fun i _ => (taskOutKey_ne_current_date i).symm)
  have hft := streamRun_frame gen st.tasks st.tasks 1
    (dictSet (dictSet (dictSet st.workflow_data ("input_text") input)
      ("current_date") date) ("current_time") time) ("current_time")
    (fun i _ => (taskOutKey_ne_current_time i).symm)
  refine ⟨?_, ?_, ?_, ?_⟩
  · intro step hstep
    exact ⟨by rw [hfd.2 step hstep, hwd0d], by rw [hft.2 step hstep, hwd0t]⟩
  · rw [hfd.1, hwd0d]
  · rw [hft.1, hwd0t]
  · intro wd' id
    exact ⟨get_task_input_other st.tasks wd' id ("current_date") (by decide)
        (by decide) (by decide),
      get_task_input_other st.tasks wd' id ("current_time") (by decide)
        (by decide) (by decide)⟩

/-- Witness for C8: in the concrete demo run the final store still
holds the run-start snapshot, and so does the store at a concrete
delivered event of task 2. -/
theorem C8_witness :
    dictGet (run_workflow genDemo sessionDemo ("inp") ("D") ("T")).store
      ("current_date") = some ("D") ∧
    dictGet (run_workflow genDemo sessionDemo ("inp") ("D") ("T")).store
      ("current_time") = some ("T") ∧
    dictGet (TraceStep.mk (Event.taskEnd 2) wdDemoAtTask2).store
      ("current_date") = some ("D") :=
  ⟨(C8_thm genDemo sessionDemo ("inp") ("D") ("T")).2.1,
    (C8_thm genDemo sessionDemo ("inp") ("D") ("T")).2.2.1,
    ((C8_thm genDemo sessionDemo ("inp") ("D") ("T")).1
      (TraceStep.mk (Event.taskEnd 2) wdDemoAtTask2) (by decide)).1⟩

/-- C1: counterexample to the claim as stated. In the two-task demo
run, task 1 completes with output "Hello1" (present in the final store),
yet at the moment `TaskEnd(1)` is delivered to the consumer (trace index
3) the shared store does NOT yet contain `task_1_output`: src line 152
performs the write only after `yield from task.stream(...)` returns,
which is after the `TaskEnd` event has been delivered. -/
theorem C1_counterexample :
    (runDemo.trace.map
        (fun s => (s.event, dictGet s.store (taskOutKey 1)))).get? 3 =
      some (Event.taskEnd 1, none) ∧
    dictGet runDemo.store (taskOutKey 1) = some ("Hello1") := by
  decide

/-- C1 (amended): task N's output write lands after `TaskEnd(N)` is
delivered but before any later task begins. Whenever `TaskBegin(j)` is
delivered with 1 ≤ N < j, the store paired with it binds `task_N_output`
to task N's complete concatenated output (the joined fragments of the
N-th provider invocation on its recorded prompt); the same binding
appears in task j's render-time input view, and whenever task j's
template reads the `task_N_output` placeholder (no brace before it), its
rendered prompt substitutes exactly that text in place. -/
theorem C1_thm (gen : GenCapability) (st : SessionState)
    (input date time : String) (j N : Nat) (wdj : WorkflowData)
    (hmem : TraceStep.mk (Event.taskBegin j) wdj ∈
      (run_workflow gen st input date time).trace)
    (hN1 : 1 ≤ N) (hNj : N < j) :
    ∃ (pN : String) (tj : LLMTask),
      (run_workflow gen st input date time).prompts.get? (N - 1) = some pN ∧
      dictGet wdj (taskOutKey N) = some (joinAll (gen N pN).fragments) ∧
      dictGet (get_task_input st.tasks wdj j) (taskOutKey N) =
        some (joinAll (gen N pN).fragments) ∧
      st.tasks.get? (j - 1) = some tj ∧
      (run_workflow gen st input date time).prompts.get? (j - 1) =
        some (renderTemplate tj.template (get_task_input st.tasks wdj j)) ∧
      ∀ (pre post : List Char),
        tj.template.data = pre ++ ((taskOutPlaceholder N).data ++ post) →
        (∀ c ∈ pre, c ≠ '{') →
        renderTemplate tj.template (get_task_input st.tasks wdj j) =
          String.mk (pre ++ ((joinAll (gen N pN).fragments).data ++
            renderGo (get_task_input st.tasks wdj j) post none)) := by
  simp only [run_workflow] at hmem ⊢
  obtain ⟨pN, hp, hstore⟩ := streamRun_begin_outputs gen st.tasks st.tasks 1 _
    j wdj hmem N hN1 hNj
  obtain ⟨_, _, tj, htj, hprompt⟩ :=
    streamRun_begin_info gen st.tasks st.tasks 1 _ j wdj hmem
  have hinput : dictGet (get_task_input st.tasks wdj j) (taskOutKey N) =
      some (joinAll (gen N pN).fragments) := by
    rw [get_task_input_other st.tasks wdj j (taskOutKey N)
      (taskOutKey_ne_system_context N) (taskOutKey_ne_task_prompt N)
      (taskOutKey_ne_chs N)]
    exact hstore
  refine ⟨pN, tj, hp, hstore, hinput, htj, hprompt, ?_⟩
  intro pre post hs hpre
  exact renderTemplate_subst tj.template (get_task_input st.tasks wdj j)
    pre post N (joinAll (gen N pN).fragments) hs hpre hinput

/-- Witness for C1's amended theorem: in the demo run, `TaskBegin(2)`
is delivered with the store already holding task 1's complete output. -/
theorem C1_witness :
    (TraceStep.mk (Event.taskBegin 2) wdDemoAtTask2 ∈
      (run_workflow genDemo sessionDemo ("inp") ("D") ("T")).trace) ∧
    ∃ (pN : String) (tj : LLMTask),
      (run_workflow genDemo sessionDemo ("inp") ("D") ("T")).prompts.get?
        (1 - 1) = some pN ∧
      dictGet wdDemoAtTask2 (taskOutKey 1) =
        some (joinAll (genDemo 1 pN).fragments) ∧
      dictGet (get_task_input sessionDemo.tasks wdDemoAtTask2 2)
        (taskOutKey 1) = some (joinAll (genDemo 1 pN).fragments) ∧
      sessionDemo.tasks.get? (2 - 1) = some tj ∧
      (run_workflow genDemo sessionDemo ("inp") ("D") ("T")).prompts.get?
        (2 - 1) =
        some (renderTemplate tj.template
          (get_task_input sessionDemo.tasks wdDemoAtTask2 2)) ∧
      ∀ (pre post : List Char),
        tj.template.data = pre ++ ((taskOutPlaceholder 1).data ++ post) →
        (∀ c ∈ pre, c ≠ '{') →
        renderTemplate tj.template
          (get_task_input sessionDemo.tasks wdDemoAtTask2 2) =
          String.mk (pre ++ ((joinAll (genDemo 1 pN).fragments).data ++
            renderGo (get_task_input sessionDemo.tasks wdDemoAtTask2 2)
              post none)) :=
  ⟨by decide,
    C1_thm genDemo sessionDemo ("inp") ("D") ("T") 2 1 wdDemoAtTask2
      (by decide) (by decide) (by decide)⟩

/-- C2: a provider failure while executing task K aborts the run:
every earlier task fully completed (its `TaskEnd` emitted, its output
present in the final store), `task_K_output` is absent from the store
(no partial write, given it was not present before the run), no
`TaskEnd(K)` is emitted, and no event of any task after K appears; the
trace is exactly the K-1 completed blocks followed by `TaskBegin(K)` and
task K's provisional fragments. -/
theorem C2_thm (gen : GenCapability) (st : SessionState)
    (input date time : String) (K : Nat)
    (hK1 : 1 ≤ K) (hK2 : K ≤ st.tasks.length)
    (hbefore : ∀ i s, 1 ≤ i → i < K → (gen i s).ok = true)
    (hfail : ∀ s, (gen K s).ok = false)
    (habsent : dictGet st.workflow_data (taskOutKey K) = none) :
    (run_workflow gen st input date time).ok = false ∧
    (∀ i, 1 ≤ i → i < K →
      Event.taskEnd i ∈
        (run_workflow gen st input date time).trace.map TraceStep.event ∧
      ∃ v, dictGet (run_workflow gen st input date time).store
        (taskOutKey i) = some v) ∧
    dictGet (run_workflow gen st input date time).store (taskOutKey K) =
      none ∧
    Event.taskEnd K ∉
      (run_workflow gen st input date time).trace.map TraceStep.event ∧
    (∀ j, K < j →
      Event.taskBegin j ∉
        (run_workflow gen st input date time).trace.map TraceStep.event ∧
      Event.taskEnd j ∉
        (run_workflow gen st input date time).trace.map TraceStep.event) ∧
    ∃ (frags : List (List String)) (fragsK : List String),
      frags.length = K - 1 ∧
      (run_workflow gen st input date time).trace.map TraceStep.event =
        eventBlocks 1 frags ++
          (Event.taskBegin K :: fragsK.map Event.contentFragment) := by
  simp only [run_workflow]
  obtain ⟨frags, fragsK, hlen, hmap, hko, houts, huntouched⟩ :=
    streamRun_fail gen st.tasks st.tasks 1
      (dictSet (dictSet (dictSet st.workflow_data ("input_text") input)
        ("current_date") date) ("current_time") time)
      K hK1 (by omega) hbefore hfail
  refine ⟨hko, ?_, ?_, ?_, ?_, frags, fragsK, hlen, hmap⟩
  · intro i h1 h2
    constructor
    · rw [hmap]
      exact List.mem_append_left _
        (eventBlocks_end_mem frags 1 i h1 (by omega))
    · exact houts i h1 h2
  · rw [huntouched,
      dictGet_set_ne _ _ _ _ (taskOutKey_ne_current_time K),
      dictGet_set_ne _ _ _ _ (taskOutKey_ne_current_date K),
      dictGet_set_ne _ _ _ _ (taskOutKey_ne_input_text K)]
    exact habsent
  · rw [hmap]
    intro hmem
    rcases List.mem_append.mp hmem with h | h
    · have := eventBlocks_end_range frags 1 K h
      omega
    · rcases List.mem_cons.mp h with h | h
      · exact absurd h (by simp)
      · rcases List.mem_map.mp h with ⟨f, _, hf⟩
        exact absurd hf (by simp)
  · intro j hj
    constructor
    · rw [hmap]
      intro hmem
      rcases List.mem_append.mp hmem with h | h
      · have := eventBlocks_begin_range frags 1 j h
        omega
      · rcases List.mem_cons.mp h with h | h
        · have : j = K := by injection h
          omega
        · rcases List.mem_map.mp h with ⟨f, _, hf⟩
          exact absurd hf (by simp)
    · rw [hmap]
      intro hmem
      rcases List.mem_append.mp hmem with h | h
      · have := eventBlocks_end_range frags 1 j h
        omega
      · rcases List.mem_cons.mp h with h | h
        · exact absurd h (by simp)
        · rcases List.mem_map.mp h with ⟨f, _, hf⟩
          exact absurd hf (by simp)

/-- Witness for C2: with a capability that succeeds at task 1 and
fails at task 2, the three-task demo session aborts at task 2: task 1's
output is in the store, task 2's is not, no `TaskEnd(2)`, and task 3
never begins. -/
theorem C2_witness :
    (run_workflow genFail2 sessionDemo3 ("inp") ("D") ("T")).ok = false ∧
    dictGet (run_workflow genFail2 sessionDemo3 ("inp") ("D") ("T")).store
      (taskOutKey 2) = none ∧
    Event.taskEnd 2 ∉
      (run_workflow genFail2 sessionDemo3 ("inp") ("D") ("T")).trace.map
        TraceStep.event ∧
    (Event.taskEnd 1 ∈
      (run_workflow genFail2 sessionDemo3 ("inp") ("D") ("T")).trace.map
        TraceStep.event ∧
      ∃ v, dictGet (run_workflow genFail2 sessionDemo3 ("inp") ("D") ("T")).store
        (taskOutKey 1) = some v) ∧
    Event.taskBegin 3 ∉
      (run_workflow genFail2 sessionDemo3 ("inp") ("D") ("T")).trace.map
        TraceStep.event := by
  have h := C2_thm genFail2 sessionDemo3 ("inp") ("D") ("T") 2
    (by decide) (by decide)
    (by
      intro i s h1 h2
      simp only [genFail2]
      simp
      omega)
    (by
      intro s
      simp [genFail2])
    (by decide)
  exact ⟨h.1, h.2.2.1, h.2.2.2.1, h.2.1 1 (by decide) (by decide),
    (h.2.2.2.2.1 3 (by decide)).1⟩

/-- C4: a task's 1-based sequence position is assigned by the pipeline
at run time (`enumerate(self.tasks, start=1)`), not fixed at creation:
after any sequence of add/delete operations on a fresh session, the
surviving task objects carry, in order, exactly the templates formatted
from their definition-time system context and task prompt, and the task
begun at run-time position j renders the template created from the j-th
surviving definition. -/
theorem C4_thm (ops : List TaskOp) (gen : GenCapability)
    (input date time : String) :
    (applyOps initialSession ops).tasks =
      (survivors [] ops).map (fun p => ⟨taskTemplateFormat p.1 p.2⟩) ∧
    ∀ (j : Nat) (wdj : WorkflowData),
      TraceStep.mk (Event.taskBegin j) wdj ∈
        (run_workflow gen (applyOps initialSession ops) input date time).trace →
      1 ≤ j ∧ j ≤ (survivors [] ops).length ∧
      ∃ sc tp : String, (survivors [] ops).get? (j - 1) = some (sc, tp) ∧
        (run_workflow gen (applyOps initialSession ops)
            input date time).prompts.get? (j - 1) =
          some (renderTemplate (taskTemplateFormat sc tp)
            (get_task_input (applyOps initialSession ops).tasks wdj j)) := by
  have htasks := applyOps_tasks ops initialSession [] rfl
  refine ⟨htasks, ?_⟩
  intro j wdj hmem
  simp only [run_workflow] at hmem ⊢
  obtain ⟨hj1, hj2, tj, htj, hprompt⟩ :=
    streamRun_begin_info gen (applyOps initialSession ops).tasks
      (applyOps initialSession ops).tasks 1 _ j wdj hmem
  rw [htasks, List.get?_map] at htj
  rcases ho : (survivors [] ops).get? (j - 1) with _ | ⟨sc, tp⟩
  · rw [ho] at htj
    simp at htj
  · rw [ho] at htj
    simp at htj
    have hlen : (applyOps initialSession ops).tasks.length =
        (survivors [] ops).length := by
      rw [htasks]
      simp
    refine ⟨hj1, by omega, sc, tp, rfl, ?_⟩
    rw [hprompt, ← htj]

/-- Witness for C4: in a session where two tasks were added and the
first was then deleted, the remaining task runs at position 1 with its
own definition-time content. -/
theorem C4_witness :
    (applyOps initialSession
        [TaskOp.add ("a") ("p"), TaskOp.add ("b") ("q"), TaskOp.del 0]).tasks =
      (survivors []
        [TaskOp.add ("a") ("p"), TaskOp.add ("b") ("q"), TaskOp.del 0]).map
        (fun p => ⟨taskTemplateFormat p.1 p.2⟩) ∧
    (1 ≤ 1 ∧ 1 ≤ (survivors []
        [TaskOp.add ("a") ("p"), TaskOp.add ("b") ("q"), TaskOp.del 0]).length ∧
      ∃ sc tp : String,
        (survivors []
          [TaskOp.add ("a") ("p"), TaskOp.add ("b") ("q"), TaskOp.del 0]).get?
            (1 - 1) = some (sc, tp) ∧
        (run_workflow genDemo
            (applyOps initialSession
              [TaskOp.add ("a") ("p"), TaskOp.add ("b") ("q"), TaskOp.del 0])
            ("inp") ("D") ("T")).prompts.get? (1 - 1) =
          some (renderTemplate (taskTemplateFormat sc tp)
            (get_task_input
              (applyOps initialSession
                [TaskOp.add ("a") ("p"), TaskOp.add ("b") ("q"),
                  TaskOp.del 0]).tasks
              [("task_1_system_context", "a"), ("task_1_task_prompt", "p"),
                ("task_2_system_context", "b"), ("task_2_task_prompt", "q"),
                ("input_text", "inp"), ("current_date", "D"),
                ("current_time", "T")] 1))) :=
  ⟨(C4_thm [TaskOp.add ("a") ("p"), TaskOp.add ("b") ("q"), TaskOp.del 0]
      genDemo ("inp") ("D") ("T")).1,
    (C4_thm [TaskOp.add ("a") ("p"), TaskOp.add ("b") ("q"), TaskOp.del 0]
      genDemo ("inp") ("D") ("T")).2 1
      [("task_1_system_context", "a"), ("task_1_task_prompt", "p"),
        ("task_2_system_context", "b"), ("task_2_task_prompt", "q"),
        ("input_text", "inp"), ("current_date", "D"), ("current_time", "T")]
      (by decide)⟩
